import Mathlib

/-!
Shallow embedding of the invoice-lifecycle / stock-ledger core of
`adetta_lite.py` (a single-file Streamlit CRUD app over SQLite/Postgres).

Modelling conventions:
* SQL `NUMERIC` money values and Python `Decimal` arithmetic are embedded as
  exact rationals (`ℚ`); the status engine and the invoice-total computation in
  the source compare/compute via `Decimal`, which is exact decimal arithmetic.
* Dates are embedded as integer day numbers; `timedelta(days = n)` is `+ n`.
* The relational tables are lists of rows; store-assigned autoincrementing
  primary keys are modelled by explicit `next…Id` counters on the state.
* Presentation-only columns (sku, min_stock, created_at, notes, payment
  method, customer name/address/contact) carry no claim and are omitted.
* UI caching (`st.cache_data`) and real time are not modelled; each handler is
  a function from the committed store state to a new state or an error.
-/

namespace Adetta

/-- Money amounts: exact decimal values embed into the rationals. -/
abbrev Money := ℚ

/-- A row of the `products` table (columns relevant to the core logic). -/
structure Product where
  id : Nat
  name : String
  price : Money
  stock : Int
  deriving Repr, DecidableEq

/-- A row of the `customers` table (`terms` = payment terms in days). -/
structure Customer where
  id : Nat
  terms : Int
  deriving Repr, DecidableEq

/-- A row of the `deliveries` table. -/
structure Delivery where
  id : Nat
  ddate : Int
  customer_id : Nat
  product_id : Nat
  qty : Int
  unit_price : Money
  deriving Repr, DecidableEq

/-- A row of the `invoices` table. -/
structure Invoice where
  id : Nat
  delivery_id : Nat
  total : Money
  issued_at : Int
  due_at : Int
  status : String
  deriving Repr, DecidableEq

/-- A row of the `payments` table. -/
structure Payment where
  id : Nat
  invoice_id : Nat
  amount : Money
  paid_at : Int
  deriving Repr, DecidableEq

/-- The committed store state: the five relational tables the core touches,
plus the autoincrement counters of the three tables the core inserts into. -/
structure State where
  products : List Product
  customers : List Customer
  deliveries : List Delivery
  invoices : List Invoice
  payments : List Payment
  nextDeliveryId : Nat
  nextInvoiceId : Nat
  nextPaymentId : Nat
  deriving Repr, DecidableEq

/-- `SELECT COALESCE(SUM(amount),0) FROM payments WHERE invoice_id=:i`. -/
def paidSumL (pays : List Payment) (invId : Nat) : Money :=
  ((pays.filter (fun p => p.invoice_id == invId)).map Payment.amount).sum

/-- Sum of the payments recorded against invoice `invId` in state `s`. -/
def paidSum (s : State) (invId : Nat) : Money :=
  paidSumL s.payments invId

/-- `invoice_status` from the source: looks the invoice up, returns `"open"`
when it is absent, else classifies by the exact `Decimal` comparison of the
payment sum against the total (`paid == 0` → open, `paid < total` → partial,
otherwise paid). -/
def invoice_status (s : State) (invId : Nat) : String :=
  match s.invoices.find? (fun i => i.id == invId) with
  | none => "open"
  | some inv =>
    let paid := paidSum s invId
    if paid = 0 then "open"
    else if paid < inv.total then "partial"
    else "paid"

/-- `refresh_invoice_statuses` from the source: rewrites every invoice's
stored status with the recomputed one.  The per-row `UPDATE` loop only writes
the `status` column, which `invoice_status` never reads, so the loop is the
simultaneous map below. -/
def refresh_invoice_statuses (s : State) : State :=
  { s with invoices := s.invoices.map (fun i => { i with status := invoice_status s i.id }) }

/-- The overpayment tolerance `1e-6` used by the payment handler. -/
def epsilon : Money := 1 / 1000000

/-- Errors of the payment-booking handler. -/
inductive PayErr where
  | invoiceNotFound : PayErr
  | overpayment (attempted openBalance : Money) : PayErr
  deriving Repr, DecidableEq

/-- The payment-booking handler (Rechnungen & Zahlungen tab): looks up the
selected invoice, computes the open balance `total - paidSum`, rejects when
`amount > open + 1e-6` (error carries attempted amount and open balance),
otherwise inserts the payment row and recomputes all invoice statuses. -/
def recordPayment (s : State) (invId : Nat) (amount : Money) (paid_at : Int) :
    Except PayErr State :=
  match s.invoices.find? (fun i => i.id == invId) with
  | none => Except.error PayErr.invoiceNotFound
  | some inv =>
    let openAmt := inv.total - paidSum s invId
    if openAmt + epsilon < amount then
      Except.error (PayErr.overpayment amount openAmt)
    else
      let s1 : State :=
        { s with
          payments := s.payments ++ [⟨s.nextPaymentId, invId, amount, paid_at⟩],
          nextPaymentId := s.nextPaymentId + 1 }
      Except.ok (refresh_invoice_statuses s1)

/-- A payment request as collected by the payment form. -/
structure PayReq where
  invoice_id : Nat
  amount : Money
  paid_at : Int
  deriving Repr, DecidableEq

/-- Running the payment handler: on an error the store is left untouched. -/
def payStep (s : State) (r : PayReq) : State :=
  match recordPayment s r.invoice_id r.amount r.paid_at with
  | Except.ok s' => s'
  | Except.error _ => s

/-- Errors of the delivery-booking handler. -/
inductive BookErr where
  | customerNotFound : BookErr
  | productNotFound : BookErr
  | noPrice (pname : String) : BookErr
  | insufficientStock (pname : String) (available requested : Int) : BookErr
  | noLines : BookErr
  deriving Repr, DecidableEq

/-- One requested line of the multi-product delivery form (product id and the
quantity entered for it). -/
structure ReqLine where
  prod_id : Nat
  qty : Int
  deriving Repr, DecidableEq

/-- A validated line of the booking loop (the `lines.append(...)` dict). -/
structure BLine where
  prod_id : Nat
  pname : String
  qty : Int
  unit_price : Money
  deriving Repr, DecidableEq

/-- Phase 1 of the booking handler: the validation loop.  A line with
`qty <= 0` is skipped (`continue`); a missing price errors first, then the
stock check; on success the captured line is appended in request order. -/
def validateLoop (s : State) : List ReqLine → Except BookErr (List BLine)
  | [] => Except.ok []
  | rl :: rest =>
    if rl.qty ≤ 0 then validateLoop s rest
    else
      match s.products.find? (fun p => p.id == rl.prod_id) with
      | none => Except.error BookErr.productNotFound
      | some p =>
        if p.price ≤ 0 then Except.error (BookErr.noPrice p.name)
        else if p.stock < rl.qty then
          Except.error (BookErr.insufficientStock p.name p.stock rl.qty)
        else
          match validateLoop s rest with
          | Except.error e => Except.error e
          | Except.ok rest' =>
            Except.ok (⟨rl.prod_id, p.name, rl.qty, p.price⟩ :: rest')

/-- `execute(INSERT INTO deliveries ...)` — one committed transaction. -/
def insertDeliveryTxn (cust_id : Nat) (dd : Int) (l : BLine) : State → State :=
  fun s =>
    { s with
      deliveries := s.deliveries ++ [⟨s.nextDeliveryId, dd, cust_id, l.prod_id, l.qty, l.unit_price⟩],
      nextDeliveryId := s.nextDeliveryId + 1 }

/-- `execute(UPDATE products SET stock = stock - :q WHERE id=:pid)` — one
committed transaction. -/
def decStockTxn (l : BLine) : State → State :=
  fun s =>
    { s with
      products := s.products.map (fun p =>
        if p.id = l.prod_id then { p with stock := p.stock - l.qty } else p) }

/-- `execute(INSERT INTO invoices ... VALUES ((SELECT MAX(id) FROM deliveries), ...))`
— one committed transaction.  Delivery ids are autoincrementing, so
`MAX(id)` is the most recently inserted delivery, i.e. `nextDeliveryId - 1`.
The total is `Decimal(str(unit_price)) * Decimal(str(qty))`, exact decimal
multiplication; issued = the delivery date, due = issued + terms days. -/
def insertInvoiceTxn (terms dd : Int) (l : BLine) : State → State :=
  fun s =>
    { s with
      invoices := s.invoices ++
        [⟨s.nextInvoiceId, s.nextDeliveryId - 1, l.unit_price * (l.qty : Money), dd, dd + terms, "open"⟩],
      nextInvoiceId := s.nextInvoiceId + 1 }

/-- Phase 2 of the booking handler, for one validated line: insert the
delivery, decrement the stock, insert the invoice (three `execute` calls). -/
def writeLine (cust_id : Nat) (terms dd : Int) (s : State) (l : BLine) : State :=
  insertInvoiceTxn terms dd l (decStockTxn l (insertDeliveryTxn cust_id dd l s))

/-- The delivery-booking handler (Lieferungen tab): look up the customer's
terms, validate every requested line, error if no line had a positive
quantity, otherwise write all lines and recompute every invoice status. -/
def bookDeliveries (s : State) (cust_id : Nat) (dd : Int) (req : List ReqLine) :
    Except BookErr State :=
  match s.customers.find? (fun c => c.id == cust_id) with
  | none => Except.error BookErr.customerNotFound
  | some c =>
    match validateLoop s req with
    | Except.error e => Except.error e
    | Except.ok lines =>
      if lines.isEmpty then Except.error BookErr.noLines
      else
        Except.ok (refresh_invoice_statuses
          (lines.foldl (writeLine cust_id c.terms dd) s))

/-- The delivery-deletion handler (Lieferungen tab): look the delivery up
(error `Lieferung nicht gefunden.` when absent), restore the product stock,
delete the dependent payments, then the invoice, then the delivery itself. -/
def deleteDelivery (s : State) (del_id : Nat) : Except String State :=
  match s.deliveries.find? (fun d => d.id == del_id) with
  | none => Except.error "Lieferung nicht gefunden."
  | some d =>
    let s1 : State :=
      { s with
        products := s.products.map (fun p =>
          if p.id = d.product_id then { p with stock := p.stock + d.qty } else p) }
    let s2 : State :=
      match s1.invoices.find? (fun i => i.delivery_id == del_id) with
      | none => s1
      | some inv =>
        { s1 with
          payments := s1.payments.filter (fun pay => pay.invoice_id != inv.id),
          invoices := s1.invoices.filter (fun i => i.id != inv.id) }
    Except.ok { s2 with deliveries := s2.deliveries.filter (fun dd => dd.id != del_id) }

/-- The state the deletion handler commits when it finds delivery `d` (id
`did`) and the dependent invoice `inv`. -/
def deleteResult (s : State) (d : Delivery) (inv : Invoice) (did : Nat) : State :=
  { products := s.products.map (fun p =>
      if p.id = d.product_id then { p with stock := p.stock + d.qty } else p),
    customers := s.customers,
    deliveries := s.deliveries.filter (fun d0 => d0.id != did),
    invoices := s.invoices.filter (fun i => i.id != inv.id),
    payments := s.payments.filter (fun pay => pay.invoice_id != inv.id),
    nextDeliveryId := s.nextDeliveryId,
    nextInvoiceId := s.nextInvoiceId,
    nextPaymentId := s.nextPaymentId }

/-- The two stock-mutating operations reachable from the UI. -/
inductive Op where
  | book (cust_id : Nat) (dd : Int) (req : List ReqLine) : Op
  | del (del_id : Nat) : Op
  deriving Repr, DecidableEq

/-- Running one operation; a rejected operation leaves the store untouched. -/
def applyOp (s : State) : Op → State
  | Op.book c dd req =>
    match bookDeliveries s c dd req with
    | Except.ok s' => s'
    | Except.error _ => s
  | Op.del i =>
    match deleteDelivery s i with
    | Except.ok s' => s'
    | Except.error _ => s

/-- Every product's on-hand stock is non-negative. -/
def stocksNonneg (s : State) : Prop := ∀ p ∈ s.products, 0 ≤ p.stock

/-- Product primary keys are unique (DB primary-key invariant). -/
def prodIdsNodup (s : State) : Prop := (s.products.map Product.id).Nodup

/-- Invoice primary keys are unique (DB primary-key invariant). -/
def invIdsNodup (s : State) : Prop := (s.invoices.map Invoice.id).Nodup

/-- Every delivery row carries a non-negative quantity (every row the booking
handler writes has a positive one). -/
def delivQtyNonneg (s : State) : Prop := ∀ d ∈ s.deliveries, 0 ≤ d.qty

/-- The state well-formedness the stock invariant is proved under. -/
def StockInv (s : State) : Prop := stocksNonneg s ∧ prodIdsNodup s ∧ delivQtyNonneg s

/-- A booking request as issued by the UI selects each product at most once
(the multiselect options are distinct values, resolved to distinct rows). -/
def OpWF : Op → Prop
  | Op.book _ _ req => (req.map ReqLine.prod_id).Nodup
  | Op.del _ => True

instance decOpWF : DecidablePred OpWF := fun op =>
  match op with
  | Op.book _ _ req => inferInstanceAs (Decidable ((req.map ReqLine.prod_id).Nodup))
  | Op.del _ => inferInstanceAs (Decidable True)

/-- The requested line passes the validation loop's checks: its product
exists, has a configured positive price, and has enough stock. -/
def passes (s : State) (rl : ReqLine) : Prop :=
  ∃ p, s.products.find? (fun pp => pp.id == rl.prod_id) = some p ∧
    0 < p.price ∧ rl.qty ≤ p.stock

/-- Total quantity the write phase subtracts from product `pid`. -/
def qtySum (lines : List BLine) (pid : Nat) : Int :=
  ((lines.filter (fun l => l.prod_id == pid)).map BLine.qty).sum

/-- Every invoice's recorded payments sum to at most `total + epsilon`. -/
def PaidBound (s : State) : Prop :=
  ∀ inv ∈ s.invoices, paidSum s inv.id ≤ inv.total + epsilon

/-- The sequence of individually committed transactions (one per `execute`
call) that the write phase of the booking handler issues: `execute` opens a
fresh `ENGINE.begin()` block per statement, so each element of this list
commits on its own. -/
def bookingTxns (cust_id : Nat) (terms dd : Int) (lines : List BLine) :
    List (State → State) :=
  lines.flatMap (fun l => [insertDeliveryTxn cust_id dd l, decStockTxn l, insertInvoiceTxn terms dd l])

/-- Run a list of committed transactions in order. -/
def applyTxns (s : State) (txns : List (State → State)) : State :=
  txns.foldl (fun st t => t st) s

/-- The store state observable after only the first `n` of the committed
transactions (e.g. when the process dies before the rest run). -/
def commitUpTo (s : State) (txns : List (State → State)) (n : Nat) : State :=
  applyTxns s (txns.take n)

/-! Concrete states used by the witnesses: the spec's running scenario
(product with stock 100 and price 10.00, customer with 30-day terms). -/

/-- Scenario base state: one product (stock 100, price 10), one customer. -/
def S0 : State :=
  { products := [⟨1, "P", 10, 100⟩],
    customers := [⟨1, 30⟩],
    deliveries := [], invoices := [], payments := [],
    nextDeliveryId := 1, nextInvoiceId := 1, nextPaymentId := 1 }

/-- The state after booking a delivery of 20 cartons of product 1 on day 0
(shown equal to the booking handler's output below). -/
def SB : State :=
  { products := [⟨1, "P", 10, 80⟩],
    customers := [⟨1, 30⟩],
    deliveries := [⟨1, 0, 1, 1, 20, 10⟩],
    invoices := [⟨1, 1, 200, 0, 30, "open"⟩],
    payments := [],
    nextDeliveryId := 2, nextInvoiceId := 2, nextPaymentId := 1 }

/-- `SB` after deleting delivery 1 again (shown equal to the deletion
handler's output below). -/
def SD : State :=
  { products := [⟨1, "P", 10, 100⟩],
    customers := [⟨1, 30⟩],
    deliveries := [], invoices := [], payments := [],
    nextDeliveryId := 2, nextInvoiceId := 2, nextPaymentId := 1 }

/-- A state with an invoice of total 200 and a recorded payment of 50. -/
def SW : State :=
  { products := [⟨1, "P", 10, 80⟩],
    customers := [⟨1, 30⟩],
    deliveries := [⟨1, 0, 1, 1, 20, 10⟩],
    invoices := [⟨1, 1, 200, 0, 30, "partial"⟩],
    payments := [⟨1, 1, 50, 5⟩],
    nextDeliveryId := 2, nextInvoiceId := 2, nextPaymentId := 2 }

/-- A state with a single open invoice of total 100 and no payments. -/
def S8 : State :=
  { products := [], customers := [],
    deliveries := [⟨1, 0, 1, 1, 10, 10⟩],
    invoices := [⟨1, 1, 100, 0, 30, "open"⟩],
    payments := [],
    nextDeliveryId := 2, nextInvoiceId := 2, nextPaymentId := 1 }

/-- `S8` after the handler accepts a payment of `100 + 1e-6` (shown equal to
the payment handler's output below). -/
def S8' : State :=
  { products := [], customers := [],
    deliveries := [⟨1, 0, 1, 1, 10, 10⟩],
    invoices := [⟨1, 1, 100, 0, 30, "paid"⟩],
    payments := [⟨1, 1, 100 + 1 / 1000000, 0⟩],
    nextDeliveryId := 2, nextInvoiceId := 2, nextPaymentId := 2 }

/-- Two products, the second with price 5 and stock 50. -/
def S10 : State :=
  { products := [⟨1, "A", 10, 100⟩, ⟨2, "B", 5, 50⟩],
    customers := [⟨1, 30⟩],
    deliveries := [], invoices := [], payments := [],
    nextDeliveryId := 1, nextInvoiceId := 1, nextPaymentId := 1 }

/-- `S10` after submitting the two-line request `[(1, qty 5), (2, qty 0)]`
(shown equal to the booking handler's output below): the zero-quantity line
is skipped and the first line is written. -/
def S10' : State :=
  { products := [⟨1, "A", 10, 95⟩, ⟨2, "B", 5, 50⟩],
    customers := [⟨1, 30⟩],
    deliveries := [⟨1, 0, 1, 1, 5, 10⟩],
    invoices := [⟨1, 1, 50, 0, 30, "open"⟩],
    payments := [],
    nextDeliveryId := 2, nextInvoiceId := 2, nextPaymentId := 1 }

/-- A store whose only product has no configured price (price 0). -/
def SP : State :=
  { products := [⟨1, "Z", 0, 50⟩],
    customers := [⟨1, 30⟩],
    deliveries := [], invoices := [], payments := [],
    nextDeliveryId := 1, nextInvoiceId := 1, nextPaymentId := 1 }

/-- The store observable after only the first two committed statements of the
booking write phase on `S0`: the delivery row is inserted and the stock is
decremented, but no invoice exists yet. -/
def SP9 : State :=
  { products := [⟨1, "P", 10, 80⟩],
    customers := [⟨1, 30⟩],
    deliveries := [⟨1, 0, 1, 1, 20, 10⟩],
    invoices := [], payments := [],
    nextDeliveryId := 2, nextInvoiceId := 1, nextPaymentId := 1 }

/-! ### Evaluation of the handlers on the concrete scenario states -/

/-- Booking 20 cartons of product 1 against `S0` succeeds and produces `SB`. -/
theorem book_S0 : bookDeliveries S0 1 0 [⟨1, 20⟩] = Except.ok SB := by
  norm_num [bookDeliveries, S0, SB, validateLoop, writeLine, insertDeliveryTxn,
    decStockTxn, insertInvoiceTxn, refresh_invoice_statuses, invoice_status,
    paidSum, paidSumL, List.find?]

/-- Deleting delivery 1 from `SB` succeeds and produces `SD`: the stock is
back at 100 and invoice, payments and delivery are gone. -/
theorem delete_SB : deleteDelivery SB 1 = Except.ok SD := by
  norm_num [deleteDelivery, SB, SD, List.find?, List.filter]

/-- The payment handler accepts `100 + 1e-6` against the open invoice of
total 100 in `S8` (the tolerance makes the comparison non-strict). -/
theorem pay_S8 : recordPayment S8 1 (100 + 1 / 1000000) 0 = Except.ok S8' := by
  norm_num [recordPayment, S8, S8', epsilon, paidSum, paidSumL,
    refresh_invoice_statuses, invoice_status, List.find?, List.filter]

/-- Submitting the request `[(1, qty 5), (2, qty 0)]` against `S10` succeeds:
the qty-0 line is skipped and the first line is written. -/
theorem book_S10 : bookDeliveries S10 1 0 [⟨1, 5⟩, ⟨2, 0⟩] = Except.ok S10' := by
  norm_num [bookDeliveries, S10, S10', validateLoop, writeLine, insertDeliveryTxn,
    decStockTxn, insertInvoiceTxn, refresh_invoice_statuses, invoice_status,
    paidSum, paidSumL, List.find?]

/-! ### C1: the status engine's trichotomy -/

/-- C1: for every invoice present in the store (with the positive total every
generated invoice has, and the non-negative payment sum every recorded
payment ledger has), `invoice_status` returns `"open"` iff the payment sum is
0, `"partial"` iff it is strictly between 0 and the total, and `"paid"` iff it
is at least the total; the comparisons are the exact ordering of the decimal
values (embedded as rationals), not approximate floating-point ones. -/
theorem invoice_status_trichotomy (s : State) (invId : Nat) (inv : Invoice)
    (hfind : s.invoices.find? (fun i => i.id == invId) = some inv)
    (htot : 0 < inv.total) (hpaid : 0 ≤ paidSum s invId) :
    (invoice_status s invId = "open" ↔ paidSum s invId = 0) ∧
    (invoice_status s invId = "partial" ↔
      0 < paidSum s invId ∧ paidSum s invId < inv.total) ∧
    (invoice_status s invId = "paid" ↔ inv.total ≤ paidSum s invId) := by
  have hop : ("open" : String) ≠ "partial" := by decide
  have hopd : ("open" : String) ≠ "paid" := by decide
  have hpp : ("partial" : String) ≠ "open" := by decide
  have hppd : ("partial" : String) ≠ "paid" := by decide
  have hdo : ("paid" : String) ≠ "open" := by decide
  have hdp : ("paid" : String) ≠ "partial" := by decide
  simp only [invoice_status, hfind]
  split_ifs with h0 h1
  · exact ⟨by simp [h0],
      ⟨fun h => absurd h hop, fun h => absurd h0 (by linarith [h.1])⟩,
      ⟨fun h => absurd h hopd, fun h => absurd h0 (by intro he; rw [he] at h; linarith)⟩⟩
  · have hpos : 0 < paidSum s invId := lt_of_le_of_ne hpaid (Ne.symm h0)
    exact ⟨⟨fun h => absurd h hpp, fun h => absurd h h0⟩,
      by simp [hpos, h1],
      ⟨fun h => absurd h hppd, fun h => absurd h1 (by linarith)⟩⟩
  · push_neg at h1
    exact ⟨⟨fun h => absurd h hdo, fun h => absurd h h0⟩,
      ⟨fun h => absurd h hdp, fun h => absurd h1 (by linarith [h.2])⟩,
      by simp [h1]⟩

/-- C1 witness: the trichotomy evaluated on `SW` (total 200, one payment of
50, stored and recomputed status `"partial"`). -/
theorem invoice_status_trichotomy_witness :
    (invoice_status SW 1 = "open" ↔ paidSum SW 1 = 0) ∧
    (invoice_status SW 1 = "partial" ↔
      0 < paidSum SW 1 ∧ paidSum SW 1 < (Invoice.mk 1 1 200 0 30 "partial").total) ∧
    (invoice_status SW 1 = "paid" ↔ (Invoice.mk 1 1 200 0 30 "partial").total ≤ paidSum SW 1) :=
  invoice_status_trichotomy SW 1 ⟨1, 1, 200, 0, 30, "partial"⟩ rfl
    (by norm_num) (by norm_num [paidSum, paidSumL, SW])

/-! ### C2: the overpayment gate of the payment handler -/

/-- C2: for an invoice selected from the store, if the attempted amount
exceeds the open balance (total minus recorded payments) plus the `1e-6`
tolerance, the handler rejects with an overpayment error carrying the
attempted amount and the open balance, and the store — payment ledger and
invoice statuses included — is untouched; otherwise the payment row with that
amount is inserted and every invoice status is recomputed. -/
theorem recordPayment_spec (s : State) (invId : Nat) (amount : Money)
    (pd : Int) (inv : Invoice)
    (hfind : s.invoices.find? (fun i => i.id == invId) = some inv) :
    (inv.total - paidSum s invId + epsilon < amount →
      recordPayment s invId amount pd =
        Except.error (PayErr.overpayment amount (inv.total - paidSum s invId)) ∧
      payStep s ⟨invId, amount, pd⟩ = s) ∧
    (amount ≤ inv.total - paidSum s invId + epsilon →
      recordPayment s invId amount pd = Except.ok (refresh_invoice_statuses
        { s with
          payments := s.payments ++ [⟨s.nextPaymentId, invId, amount, pd⟩],
          nextPaymentId := s.nextPaymentId + 1 })) := by
  constructor
  · intro h
    have hr : recordPayment s invId amount pd =
        Except.error (PayErr.overpayment amount (inv.total - paidSum s invId)) := by
      simp only [recordPayment, hfind]
      rw [if_pos h]
    exact ⟨hr, by simp [payStep, hr]⟩
  · intro h
    simp only [recordPayment, hfind]
    rw [if_neg (not_lt.mpr h)]

/-- C2 witness: against `SW` (open balance 150) an attempted payment of 200
is rejected and the store is untouched. -/
theorem recordPayment_spec_witness :
    recordPayment SW 1 200 9 =
      Except.error (PayErr.overpayment 200
        ((Invoice.mk 1 1 200 0 30 "partial").total - paidSum SW 1)) ∧
    payStep SW ⟨1, 200, 9⟩ = SW :=
  (recordPayment_spec SW 1 200 9 ⟨1, 1, 200, 0, 30, "partial"⟩ rfl).1
    (by norm_num [paidSum, paidSumL, SW, epsilon])

/-! ### Helper lemmas -/

/-- Two rows of a table with unique keys that agree on the key are equal. -/
theorem eq_of_mem_of_nodup_keys {α : Type} (key : α → Nat) :
    ∀ (l : List α), (l.map key).Nodup →
      ∀ a b, a ∈ l → b ∈ l → key a = key b → a = b := by
  intro l
  induction l with
  | nil => intro _ a b ha; cases ha
  | cons h t ih =>
    intro hnd a b ha hb hk
    rw [List.map_cons, List.nodup_cons] at hnd
    rcases List.mem_cons.1 ha with rfl | ha' <;>
      rcases List.mem_cons.1 hb with rfl | hb'
    · rfl
    · exact absurd (hk ▸ List.mem_map_of_mem key hb') hnd.1
    · exact absurd (hk ▸ List.mem_map_of_mem key ha') hnd.1
    · exact ih hnd.2 a b ha' hb' hk

/-- Appending one payment adds its amount to the sum of its invoice and
leaves every other invoice's sum unchanged. -/
theorem paidSumL_append (l : List Payment) (q : Payment) (j : Nat) :
    paidSumL (l ++ [q]) j = paidSumL l j + (if q.invoice_id = j then q.amount else 0) := by
  by_cases hq : q.invoice_id = j <;>
    simp [paidSumL, List.filter_append, hq]

/-- Recomputing the stored statuses does not change any payment sum. -/
theorem paidSum_refresh (s : State) (j : Nat) :
    paidSum (refresh_invoice_statuses s) j = paidSum s j := rfl

/-- Recomputing the stored statuses keeps the invoice keys. -/
theorem invIds_refresh (s : State) :
    (refresh_invoice_statuses s).invoices.map Invoice.id = s.invoices.map Invoice.id := by
  simp [refresh_invoice_statuses, List.map_map, Function.comp]

/-- A single run of the payment handler preserves the payment-sum bound and
the uniqueness of invoice keys. -/
theorem payStep_preserves_bound (s : State) (r : PayReq)
    (hnd : invIdsNodup s) (hb : PaidBound s) :
    PaidBound (payStep s r) ∧ invIdsNodup (payStep s r) := by
  rcases hf : s.invoices.find? (fun i => i.id == r.invoice_id) with _ | inv0
  · have hr : recordPayment s r.invoice_id r.amount r.paid_at =
        Except.error PayErr.invoiceNotFound := by
      simp [recordPayment, hf]
    simp only [payStep, hr]
    exact ⟨hb, hnd⟩
  · by_cases hc : inv0.total - paidSum s r.invoice_id + epsilon < r.amount
    · have hr : recordPayment s r.invoice_id r.amount r.paid_at =
          Except.error (PayErr.overpayment r.amount (inv0.total - paidSum s r.invoice_id)) := by
        simp only [recordPayment, hf]
        rw [if_pos hc]
      simp only [payStep, hr]
      exact ⟨hb, hnd⟩
    · have hr : recordPayment s r.invoice_id r.amount r.paid_at =
          Except.ok (refresh_invoice_statuses
            { s with
              payments := s.payments ++ [⟨s.nextPaymentId, r.invoice_id, r.amount, r.paid_at⟩],
              nextPaymentId := s.nextPaymentId + 1 }) := by
        simp only [recordPayment, hf]
        rw [if_neg hc]
      have hstep : payStep s r = refresh_invoice_statuses
          { s with
            payments := s.payments ++ [⟨s.nextPaymentId, r.invoice_id, r.amount, r.paid_at⟩],
            nextPaymentId := s.nextPaymentId + 1 } := by
        simp only [payStep, hr]
      rw [hstep]
      constructor
      · intro inv' hmem
        rcases List.mem_map.1 hmem with ⟨inv, hinv, rfl⟩
        show paidSum _ inv.id ≤ inv.total + epsilon
        rw [paidSum_refresh]
        show paidSumL (s.payments ++ [⟨s.nextPaymentId, r.invoice_id, r.amount, r.paid_at⟩]) inv.id ≤
          inv.total + epsilon
        rw [paidSumL_append]
        by_cases hj : r.invoice_id = inv.id
        · have hmem0 := List.mem_of_find?_eq_some hf
          have hid : inv0.id = r.invoice_id := by
            simpa using List.find?_some hf
          have heq : inv = inv0 :=
            eq_of_mem_of_nodup_keys Invoice.id s.invoices hnd inv inv0 hinv hmem0
              (by rw [hid, hj])
          subst heq
          have hle : r.amount ≤ inv.total - paidSum s r.invoice_id + epsilon := not_lt.1 hc
          rw [hj] at hle
          rw [if_pos hj]
          show paidSum s inv.id + r.amount ≤ inv.total + epsilon
          linarith
        · rw [if_neg hj, add_zero]
          exact hb inv hinv
      · show ((refresh_invoice_statuses _).invoices.map Invoice.id).Nodup
        rw [invIds_refresh]
        exact hnd

/-- The payment-sum bound is preserved along any sequence of payment runs. -/
theorem payFold_preserves (reqs : List PayReq) :
    ∀ s : State, invIdsNodup s → PaidBound s →
      PaidBound (reqs.foldl payStep s) ∧ invIdsNodup (reqs.foldl payStep s) := by
  induction reqs with
  | nil => exact fun s hn hb => ⟨hb, hn⟩
  | cons r rest ih =>
    intro s hn hb
    rcases payStep_preserves_bound s r hn hb with ⟨hb', hn'⟩
    simpa [List.foldl] using ih (payStep s r) hn' hb'

/-! ### C8: the payment-sum invariant (corrected) -/

/-- C8 counterexample: the insertion-time check accepts a payment of
`total + 1e-6` against the untouched invoice of total 100 in `S8` (the
comparison `amount > open + 1e-6` is not strict at the tolerance boundary),
after which the recorded payments of invoice 1 sum to more than its total —
the claimed invariant `sum(payments) ≤ total` fails. -/
theorem paidSum_exceeds_total_counterexample :
    recordPayment S8 1 (100 + 1 / 1000000) 0 = Except.ok S8' ∧
    S8.invoices.map Invoice.total = [100] ∧
    (100 : ℚ) < paidSum S8' 1 :=
  ⟨pay_S8, rfl, by norm_num [paidSum, paidSumL, S8', List.filter]⟩

/-- C8 (amended): after every sequence of payment-recording operations each
accepted by the insertion-time check, starting from a store whose invoices
already satisfy the bound, every invoice's payments sum to at most its total
plus the `1e-6` tolerance (the tolerance is admitted by the check, so the
exact bound `sum ≤ total` does not hold). -/
theorem paidSum_bounded (reqs : List PayReq) (s : State)
    (hnd : invIdsNodup s) (hb : PaidBound s) :
    PaidBound (reqs.foldl payStep s) :=
  (payFold_preserves reqs s hnd hb).1

/-- C8 witness: two payments (60, then 100 — the second rejected as
overpayment) against the invoice of total 100 keep the bound. -/
theorem paidSum_bounded_witness :
    PaidBound ([⟨1, 60, 0⟩, ⟨1, 100, 1⟩].foldl payStep S8) :=
  paidSum_bounded [⟨1, 60, 0⟩, ⟨1, 100, 1⟩] S8
    (by show (S8.invoices.map Invoice.id).Nodup; decide)
    (by
      intro inv h
      simp only [S8, List.mem_singleton] at h
      subst h
      norm_num [paidSum, paidSumL, S8, epsilon, List.filter])

/-! ### C6: the delivery-deletion cascade (corrected) -/

/-- C6 counterexample: after deleting delivery 1 of `SB`, invoice 1 is gone,
yet querying the deleted invoice's status does not signal NotFound — the
status engine's fallback for a missing invoice returns the normal status
value `"open"`. -/
theorem deleted_invoice_status_counterexample :
    deleteDelivery SB 1 = Except.ok SD ∧
    SD.invoices.find? (fun i => i.id == 1) = none ∧
    invoice_status SD 1 = "open" :=
  ⟨delete_SB, rfl, rfl⟩

/-- C6 (amended): deleting an existing delivery restores the product's stock
by the delivery's quantity and removes the dependent payments, the invoice
and the delivery (the write order in the handler is stock restore, then
payments, then invoice, then delivery); deleting a non-existent delivery
fails with the not-found error (and, the result being an error, changes
nothing); afterwards querying the deleted invoice's status returns the
fallback `"open"` for a missing invoice, not a NotFound signal. -/
theorem deleteDelivery_spec (s : State) (did : Nat) :
    (s.deliveries.find? (fun d0 => d0.id == did) = none →
      deleteDelivery s did = Except.error "Lieferung nicht gefunden.") ∧
    (∀ d, s.deliveries.find? (fun d0 => d0.id == did) = some d →
      ∀ inv, s.invoices.find? (fun i => i.delivery_id == did) = some inv →
      ∃ s', deleteDelivery s did = Except.ok s' ∧
        s'.products = s.products.map (fun p =>
          if p.id = d.product_id then { p with stock := p.stock + d.qty } else p) ∧
        s'.payments = s.payments.filter (fun pay => pay.invoice_id != inv.id) ∧
        s'.invoices = s.invoices.filter (fun i => i.id != inv.id) ∧
        s'.deliveries = s.deliveries.filter (fun d0 => d0.id != did) ∧
        invoice_status s' inv.id = "open") := by
  constructor
  · intro h
    simp [deleteDelivery, h]
  · intro d hd inv hinv
    refine ⟨deleteResult s d inv did, ?_, rfl, rfl, rfl, rfl, ?_⟩
    · show deleteDelivery s did = Except.ok _
      simp only [deleteDelivery, hd]
      rw [show ({ s with products := s.products.map (fun p =>
            if p.id = d.product_id then { p with stock := p.stock + d.qty } else p) } : State).invoices.find?
            (fun i => i.delivery_id == did) = some inv from hinv]
      rfl
    · have hnone : (s.invoices.filter (fun i => i.id != inv.id)).find?
          (fun i => i.id == inv.id) = none := by
        rw [List.find?_eq_none]
        intro x hx
        have hne := (List.mem_filter.1 hx).2
        simp only [bne_iff_ne, ne_eq] at hne
        simp [hne]
      have hnone' : (deleteResult s d inv did).invoices.find?
          (fun i => i.id == inv.id) = none := hnone
      simp [invoice_status, hnone']

/-- C6 witness: the amended deletion spec evaluated at the booked state `SB`
(delivery 1, invoice 1). -/
theorem deleteDelivery_spec_witness :
    ∃ s', deleteDelivery SB 1 = Except.ok s' ∧
      s'.products = SB.products.map (fun p =>
        if p.id = (Delivery.mk 1 0 1 1 20 10).product_id then
          { p with stock := p.stock + (Delivery.mk 1 0 1 1 20 10).qty } else p) ∧
      s'.payments = SB.payments.filter
        (fun pay => pay.invoice_id != (Invoice.mk 1 1 200 0 30 "open").id) ∧
      s'.invoices = SB.invoices.filter
        (fun i => i.id != (Invoice.mk 1 1 200 0 30 "open").id) ∧
      s'.deliveries = SB.deliveries.filter (fun d0 => d0.id != 1) ∧
      invoice_status s' (Invoice.mk 1 1 200 0 30 "open").id = "open" :=
  (deleteDelivery_spec SB 1).2 ⟨1, 0, 1, 1, 20, 10⟩ rfl ⟨1, 1, 200, 0, 30, "open"⟩ rfl

/-! ### Validation-loop and write-phase lemmas -/

/-- Every line the validation loop lets through was checked: positive
quantity, existing product with positive price and sufficient stock, and the
captured unit price is that product's price. -/
theorem validateLoop_sound (s : State) :
    ∀ (req : List ReqLine) (lines : List BLine),
      validateLoop s req = Except.ok lines →
      ∀ bl ∈ lines, 0 < bl.qty ∧
        ∃ p, s.products.find? (fun pp => pp.id == bl.prod_id) = some p ∧
          0 < p.price ∧ bl.qty ≤ p.stock ∧ bl.unit_price = p.price := by
  intro req
  induction req with
  | nil =>
    intro lines h bl hbl
    simp only [validateLoop] at h
    cases h
    cases hbl
  | cons rl rest ih =>
    intro lines h bl hbl
    simp only [validateLoop] at h
    by_cases hq : rl.qty ≤ 0
    · rw [if_pos hq] at h
      exact ih lines h bl hbl
    · rw [if_neg hq] at h
      cases hfp : s.products.find? (fun p => p.id == rl.prod_id) with
      | none => simp only [hfp] at h; cases h
      | some p =>
        simp only [hfp] at h
        by_cases hpr : p.price ≤ 0
        · rw [if_pos hpr] at h; cases h
        · rw [if_neg hpr] at h
          by_cases hst : p.stock < rl.qty
          · rw [if_pos hst] at h; cases h
          · rw [if_neg hst] at h
            cases hrest : validateLoop s rest with
            | error e => simp only [hrest] at h; cases h
            | ok rest' =>
              simp only [hrest] at h
              cases h
              rcases List.mem_cons.1 hbl with rfl | hbl'
              · exact ⟨(by omega : (0:ℤ) < rl.qty), p, hfp, not_le.1 hpr,
                  (by omega : rl.qty ≤ p.stock), rfl⟩
              · exact ih rest' hrest bl hbl'

/-- If the validation loop succeeds, every requested line with positive
quantity passed the price and stock checks. -/
theorem validateLoop_passes (s : State) :
    ∀ (req : List ReqLine) (lines : List BLine),
      validateLoop s req = Except.ok lines →
      ∀ rl ∈ req, 0 < rl.qty → passes s rl := by
  intro req
  induction req with
  | nil => intro lines _ rl hrl; cases hrl
  | cons rl0 rest ih =>
    intro lines h rl hrl hq
    simp only [validateLoop] at h
    rcases List.mem_cons.1 hrl with rfl | hrl'
    · rw [if_neg (by omega : ¬ rl.qty ≤ 0)] at h
      cases hfp : s.products.find? (fun p => p.id == rl.prod_id) with
      | none => simp only [hfp] at h; cases h
      | some p =>
        simp only [hfp] at h
        by_cases hpr : p.price ≤ 0
        · rw [if_pos hpr] at h; cases h
        · rw [if_neg hpr] at h
          by_cases hst : p.stock < rl.qty
          · rw [if_pos hst] at h; cases h
          · exact ⟨p, hfp, not_le.1 hpr, by omega⟩
    · by_cases hq0 : rl0.qty ≤ 0
      · rw [if_pos hq0] at h
        exact ih lines h rl hrl' hq
      · rw [if_neg hq0] at h
        cases hfp : s.products.find? (fun p => p.id == rl0.prod_id) with
        | none => simp only [hfp] at h; cases h
        | some p =>
          simp only [hfp] at h
          by_cases hpr : p.price ≤ 0
          · rw [if_pos hpr] at h; cases h
          · rw [if_neg hpr] at h
            by_cases hst : p.stock < rl0.qty
            · rw [if_pos hst] at h; cases h
            · rw [if_neg hst] at h
              cases hrest : validateLoop s rest with
              | error e => simp only [hrest] at h; cases h
              | ok rest' => simp only [hrest] at h; exact ih rest' hrest rl hrl' hq

/-- The validated lines' product ids form a sublist of the requested ones. -/
theorem validateLoop_ids_sublist (s : State) :
    ∀ (req : List ReqLine) (lines : List BLine),
      validateLoop s req = Except.ok lines →
      List.Sublist (lines.map BLine.prod_id) (req.map ReqLine.prod_id) := by
  intro req
  induction req with
  | nil =>
    intro lines h
    simp only [validateLoop] at h
    cases h
    simp
  | cons rl rest ih =>
    intro lines h
    simp only [validateLoop] at h
    by_cases hq : rl.qty ≤ 0
    · rw [if_pos hq] at h
      exact List.Sublist.cons rl.prod_id (ih lines h)
    · rw [if_neg hq] at h
      cases hfp : s.products.find? (fun p => p.id == rl.prod_id) with
      | none => simp only [hfp] at h; cases h
      | some p =>
        simp only [hfp] at h
        by_cases hpr : p.price ≤ 0
        · rw [if_pos hpr] at h; cases h
        · rw [if_neg hpr] at h
          by_cases hst : p.stock < rl.qty
          · rw [if_pos hst] at h; cases h
          · rw [if_neg hst] at h
            cases hrest : validateLoop s rest with
            | error e => simp only [hrest] at h; cases h
            | ok rest' =>
              simp only [hrest] at h
              cases h
              exact List.Sublist.cons₂ rl.prod_id (ih rest' hrest)

/-- One write step only changes the products table by decrementing the
line's product. -/
theorem writeLine_products (cid : Nat) (terms dd : Int) (s : State) (l : BLine) :
    (writeLine cid terms dd s l).products =
      s.products.map (fun p =>
        if p.id = l.prod_id then { p with stock := p.stock - l.qty } else p) := rfl

/-- One write step appends exactly one delivery row. -/
theorem writeLine_deliveries (cid : Nat) (terms dd : Int) (s : State) (l : BLine) :
    (writeLine cid terms dd s l).deliveries =
      s.deliveries ++ [⟨s.nextDeliveryId, dd, cid, l.prod_id, l.qty, l.unit_price⟩] := rfl

theorem qtySum_nil (pid : Nat) : qtySum [] pid = 0 := rfl

theorem qtySum_cons (l : BLine) (ls : List BLine) (pid : Nat) :
    qtySum (l :: ls) pid = (if l.prod_id = pid then l.qty else 0) + qtySum ls pid := by
  by_cases h : l.prod_id = pid <;> simp [qtySum, List.filter_cons, h]

theorem qtySum_eq_zero (ls : List BLine) (pid : Nat)
    (h : pid ∉ ls.map BLine.prod_id) : qtySum ls pid = 0 := by
  induction ls with
  | nil => rfl
  | cons l ls ih =>
    simp only [List.map_cons, List.mem_cons] at h
    push_neg at h
    rw [qtySum_cons, if_neg (fun he => h.1 he.symm), ih h.2, add_zero]

/-- With each product requested at most once, the write phase subtracts from
a product either nothing or the quantity of its unique line. -/
theorem qtySum_of_nodup (ls : List BLine) (pid : Nat)
    (hnd : (ls.map BLine.prod_id).Nodup) :
    qtySum ls pid = 0 ∨ ∃ l ∈ ls, l.prod_id = pid ∧ qtySum ls pid = l.qty := by
  induction ls with
  | nil => exact Or.inl rfl
  | cons l ls ih =>
    rw [List.map_cons, List.nodup_cons] at hnd
    by_cases h : l.prod_id = pid
    · refine Or.inr ⟨l, List.mem_cons_self l ls, h, ?_⟩
      rw [qtySum_cons, if_pos h, qtySum_eq_zero ls pid (h ▸ hnd.1), add_zero]
    · rw [qtySum_cons, if_neg h, zero_add]
      rcases ih hnd.2 with h0 | ⟨l', hl', hlp, hq⟩
      · exact Or.inl h0
      · exact Or.inr ⟨l', List.mem_cons_of_mem l hl', hlp, hq⟩

/-- The products table after the whole write phase: every product's stock is
decremented by the total quantity booked against it. -/
theorem writeLines_products (cid : Nat) (terms dd : Int) :
    ∀ (lines : List BLine) (s : State),
      (lines.foldl (writeLine cid terms dd) s).products =
        s.products.map (fun p => { p with stock := p.stock - qtySum lines p.id }) := by
  intro lines
  induction lines with
  | nil =>
    intro s
    have hid : ∀ p : Product, ({ p with stock := p.stock - qtySum [] p.id }) = p := by
      intro p; cases p; simp [qtySum_nil]
    simp only [List.foldl_nil]
    rw [List.map_congr_left (fun p _ => hid p), List.map_id']
  | cons l ls ih =>
    intro s
    rw [List.foldl_cons, ih (writeLine cid terms dd s l), writeLine_products,
      List.map_map]
    refine List.map_congr_left ?_
    intro p _
    rcases p with ⟨pid0, pn0, ppr0, pst0⟩
    simp only [Function.comp_apply, qtySum_cons]
    by_cases h : pid0 = l.prod_id
    · rw [if_pos h, if_pos h.symm]
      simp [sub_sub]
    · rw [if_neg h, if_neg (fun he => h he.symm), zero_add]

/-- The write phase never changes a product's primary key. -/
theorem writeLines_prod_ids (cid : Nat) (terms dd : Int) (lines : List BLine)
    (s : State) :
    (lines.foldl (writeLine cid terms dd) s).products.map Product.id =
      s.products.map Product.id := by
  rw [writeLines_products, List.map_map]
  exact List.map_congr_left (fun p _ => rfl)

/-- The write phase only appends delivery rows whose quantity is a line's. -/
theorem writeLines_deliveries_qty (cid : Nat) (terms dd : Int) :
    ∀ (lines : List BLine) (s : State),
      (∀ d ∈ s.deliveries, 0 ≤ d.qty) → (∀ l ∈ lines, 0 ≤ l.qty) →
      ∀ d ∈ (lines.foldl (writeLine cid terms dd) s).deliveries, 0 ≤ d.qty := by
  intro lines
  induction lines with
  | nil => exact fun s hs _ => hs
  | cons l ls ih =>
    intro s hs hl
    rw [List.foldl_cons]
    refine ih (writeLine cid terms dd s l) ?_ (fun x hx => hl x (List.mem_cons_of_mem l hx))
    intro d hd
    rw [writeLine_deliveries] at hd
    rcases List.mem_append.1 hd with hd' | hd'
    · exact hs d hd'
    · rcases List.mem_singleton.1 hd' with rfl
      exact hl l (List.mem_cons_self l ls)
  
/-- The first row with a given unique key is the member carrying that key. -/
theorem find?_key_eq {α : Type} (key : α → Nat) (l : List α)
    (hnd : (l.map key).Nodup) (a : α) (ha : a ∈ l) :
    l.find? (fun x => key x == key a) = some a := by
  cases hf : l.find? (fun x => key x == key a) with
  | none => exact absurd (List.find?_eq_none.1 hf a ha) (by simp)
  | some b =>
    have hb := List.mem_of_find?_eq_some hf
    have hkey : key b = key a := by simpa using List.find?_some hf
    rw [eq_of_mem_of_nodup_keys key l hnd b a hb ha hkey]

/-- Inverting a successful booking: the customer was found, validation
succeeded, and the result is the written store with statuses recomputed. -/
theorem bookDeliveries_ok_inversion (s : State) (cid : Nat) (dd : Int)
    (req : List ReqLine) (s' : State)
    (h : bookDeliveries s cid dd req = Except.ok s') :
    ∃ c lines, s.customers.find? (fun cc => cc.id == cid) = some c ∧
      validateLoop s req = Except.ok lines ∧ lines ≠ [] ∧
      s' = refresh_invoice_statuses (lines.foldl (writeLine cid c.terms dd) s) := by
  unfold bookDeliveries at h
  cases hcf : s.customers.find? (fun cc => cc.id == cid) with
  | none => simp only [hcf] at h; cases h
  | some c =>
    simp only [hcf] at h
    cases hv : validateLoop s req with
    | error e => simp only [hv] at h; cases h
    | ok lines =>
      simp only [hv] at h
      by_cases he : lines.isEmpty
      · rw [if_pos he] at h; cases h
      · rw [if_neg he] at h
        cases h
        exact ⟨c, lines, rfl, rfl, fun hn => he (by simp [hn]), rfl⟩

/-- Inverting a successful deletion: some delivery with the requested id was
found, the stock restore is the only change to the products table, and the
deliveries table only shrinks. -/
theorem deleteDelivery_ok_inversion (s : State) (did : Nat) (s' : State)
    (h : deleteDelivery s did = Except.ok s') :
    ∃ d, d ∈ s.deliveries ∧
      s'.products = s.products.map (fun p =>
        if p.id = d.product_id then { p with stock := p.stock + d.qty } else p) ∧
      List.Sublist s'.deliveries s.deliveries := by
  unfold deleteDelivery at h
  cases hf : s.deliveries.find? (fun d0 => d0.id == did) with
  | none => simp only [hf] at h; cases h
  | some d =>
    simp only [hf] at h
    refine ⟨d, List.mem_of_find?_eq_some hf, ?_⟩
    split at h <;> cases h <;> exact ⟨rfl, List.filter_sublist _⟩

/-- A single UI operation (booking with each product selected once, or
deletion) preserves non-negative stocks, unique product keys and
non-negative delivery quantities. -/
theorem applyOp_StockInv (s : State) (op : Op) (hop : OpWF op)
    (hinv : StockInv s) : StockInv (applyOp s op) := by
  obtain ⟨hstock, hids, hqty⟩ := hinv
  cases op with
  | book cid dd req =>
    simp only [applyOp]
    cases hb : bookDeliveries s cid dd req with
    | error e => exact ⟨hstock, hids, hqty⟩
    | ok s' =>
      show StockInv s'
      obtain ⟨c, lines, hcf, hv, hne, rfl⟩ := bookDeliveries_ok_inversion s cid dd req s' hb
      have hlnd : (lines.map BLine.prod_id).Nodup :=
        List.Nodup.sublist (validateLoop_ids_sublist s req lines hv) hop
      refine ⟨?_, ?_, ?_⟩
      · intro q hq
        have hq' : q ∈ (lines.foldl (writeLine cid c.terms dd) s).products := hq
        rw [writeLines_products] at hq'
        rcases List.mem_map.1 hq' with ⟨p, hp, rfl⟩
        show (0:ℤ) ≤ p.stock - qtySum lines p.id
        rcases qtySum_of_nodup lines p.id hlnd with h0 | ⟨l, hl, hlp, hqs⟩
        · rw [h0]
          have := hstock p hp
          omega
        · rw [hqs]
          obtain ⟨-, p', hfp', -, hle, -⟩ := validateLoop_sound s req lines hv l hl
          rw [hlp] at hfp'
          have hfind := find?_key_eq Product.id s.products hids p hp
          rw [hfp'] at hfind
          cases hfind
          omega
      · show ((lines.foldl (writeLine cid c.terms dd) s).products.map Product.id).Nodup
        rw [writeLines_prod_ids]
        exact hids
      · intro d hd
        have hd' : d ∈ (lines.foldl (writeLine cid c.terms dd) s).deliveries := hd
        refine writeLines_deliveries_qty cid c.terms dd lines s hqty ?_ d hd'
        intro l hl
        have := (validateLoop_sound s req lines hv l hl).1
        omega
  | del did =>
    simp only [applyOp]
    cases hdel : deleteDelivery s did with
    | error e => exact ⟨hstock, hids, hqty⟩
    | ok s' =>
      show StockInv s'
      obtain ⟨d, hdm, hprod, hsub⟩ := deleteDelivery_ok_inversion s did s' hdel
      refine ⟨?_, ?_, ?_⟩
      · intro q hq
        rw [hprod] at hq
        rcases List.mem_map.1 hq with ⟨p, hp, rfl⟩
        by_cases h : p.id = d.product_id
        · rw [if_pos h]
          exact add_nonneg (hstock p hp) (hqty d hdm)
        · rw [if_neg h]
          exact hstock p hp
      · show (s'.products.map Product.id).Nodup
        rw [hprod, List.map_map]
        have hcongr : (s.products.map (Product.id ∘ fun p =>
            if p.id = d.product_id then { p with stock := p.stock + d.qty } else p)) =
            s.products.map Product.id := by
          refine List.map_congr_left ?_
          intro p _
          by_cases h : p.id = d.product_id
          · rw [Function.comp_apply, if_pos h]
          · rw [Function.comp_apply, if_neg h]
        rw [hcongr]
        exact hids
      · intro d0 hd0
        exact hqty d0 (hsub.subset hd0)

/-- The invariant carries over any finite operation sequence. -/
theorem foldOps_StockInv (ops : List Op) :
    ∀ s : State, (∀ op ∈ ops, OpWF op) → StockInv s →
      StockInv (ops.foldl applyOp s) := by
  induction ops with
  | nil => exact fun _ _ h => h
  | cons op rest ih =>
    intro s hops hinv
    rw [List.foldl_cons]
    exact ih (applyOp s op) (fun o ho => hops o (List.mem_cons_of_mem op ho))
      (applyOp_StockInv s op (hops op (List.mem_cons_self op rest)) hinv)

/-! ### C3: stock never goes negative -/

/-- C3: starting from a well-formed store with all stocks non-negative (with
unique product keys and the non-negative delivery quantities every reachable
store has), every finite sequence of delivery-booking and delivery-deletion
operations — bookings rejected when a requested quantity exceeds the current
stock, deletions only incrementing stock — keeps every product's stock
non-negative. -/
theorem stock_nonneg_invariant (ops : List Op) (s : State)
    (hops : ∀ op ∈ ops, OpWF op) (hinv : StockInv s) :
    stocksNonneg (ops.foldl applyOp s) :=
  (foldOps_StockInv ops s hops hinv).1

/-- C3 witness: book 20 cartons, delete the delivery, then attempt an
over-large booking of 200 (rejected) — stock stays non-negative. -/
theorem stock_nonneg_invariant_witness :
    stocksNonneg ([Op.book 1 0 [⟨1, 20⟩], Op.del 1, Op.book 1 0 [⟨1, 200⟩]].foldl applyOp S0) :=
  stock_nonneg_invariant [Op.book 1 0 [⟨1, 20⟩], Op.del 1, Op.book 1 0 [⟨1, 200⟩]] S0
    (by decide)
    ⟨by show ∀ p ∈ S0.products, (0:ℤ) ≤ p.stock; decide,
     by show (S0.products.map Product.id).Nodup; decide,
     by show ∀ d ∈ S0.deliveries, (0:ℤ) ≤ d.qty; decide⟩

/-- Rows that all fail the predicate do not affect a lookup. -/
theorem find?_append_none {α : Type} (p : α → Bool) (l1 l2 : List α)
    (h : ∀ x ∈ l1, p x = false) : (l1 ++ l2).find? p = l2.find? p := by
  induction l1 with
  | nil => rfl
  | cons a t ih =>
    rw [List.cons_append, List.find?_cons_of_neg _ (by simp [h a (List.mem_cons_self a t)]),
      ih (fun x hx => h x (List.mem_cons_of_mem a hx))]

/-- Validating a one-line request: either the line is skipped for a
non-positive quantity, or all three checks passed and the line was captured. -/
theorem validateLoop_single (s : State) (rl : ReqLine) (lines : List BLine)
    (h : validateLoop s [rl] = Except.ok lines) :
    (rl.qty ≤ 0 ∧ lines = []) ∨
    (0 < rl.qty ∧ ∃ p, s.products.find? (fun pp => pp.id == rl.prod_id) = some p ∧
      0 < p.price ∧ rl.qty ≤ p.stock ∧
      lines = [⟨rl.prod_id, p.name, rl.qty, p.price⟩]) := by
  simp only [validateLoop] at h
  by_cases hq : rl.qty ≤ 0
  · rw [if_pos hq] at h
    cases h
    exact Or.inl ⟨hq, rfl⟩
  · rw [if_neg hq] at h
    cases hfp : s.products.find? (fun pp => pp.id == rl.prod_id) with
    | none => simp only [hfp] at h; cases h
    | some p =>
      simp only [hfp] at h
      by_cases hpr : p.price ≤ 0
      · rw [if_pos hpr] at h; cases h
      · rw [if_neg hpr] at h
        by_cases hst : p.stock < rl.qty
        · rw [if_pos hst] at h; cases h
        · rw [if_neg hst] at h
          cases h
          exact Or.inr ⟨by omega, p, rfl, not_le.1 hpr, by omega, rfl⟩

/-- Inverting a successful one-line booking: the customer and product were
found, the line passed all checks, and the result is the written store with
statuses recomputed. -/
theorem book_single_inversion (s : State) (cid : Nat) (dd : Int) (pid : Nat)
    (q : Int) (s' : State)
    (hbook : bookDeliveries s cid dd [⟨pid, q⟩] = Except.ok s') :
    ∃ c p, s.customers.find? (fun cc => cc.id == cid) = some c ∧
      s.products.find? (fun pp => pp.id == pid) = some p ∧
      0 < q ∧ 0 < p.price ∧ q ≤ p.stock ∧
      s' = refresh_invoice_statuses
        (writeLine cid c.terms dd s ⟨pid, p.name, q, p.price⟩) := by
  obtain ⟨c, lines, hcf, hv, hne, rfl⟩ :=
    bookDeliveries_ok_inversion s cid dd [⟨pid, q⟩] _ hbook
  rcases validateLoop_single s ⟨pid, q⟩ lines hv with ⟨_, rfl⟩ | ⟨hq, p, hfp, hpr, hst, rfl⟩
  · exact absurd rfl hne
  · exact ⟨c, p, hcf, hfp, hq, hpr, hst, rfl⟩

/-- The products table after a successful deletion, in terms of the found
delivery row. -/
theorem deleteDelivery_products_of_find (s : State) (did : Nat) (d : Delivery)
    (t : State) (hf : s.deliveries.find? (fun d0 => d0.id == did) = some d)
    (h : deleteDelivery s did = Except.ok t) :
    t.products = s.products.map (fun p =>
      if p.id = d.product_id then { p with stock := p.stock + d.qty } else p) := by
  unfold deleteDelivery at h
  simp only [hf] at h
  split at h <;> cases h <;> rfl

/-! ### C4: booking then deleting restores the stock -/

/-- C4: for every state whose delivery ids do not collide with the next
assigned id (the autoincrement invariant) and every successfully booked
one-line delivery of quantity `q`, immediately deleting that delivery
succeeds and restores the products table — in particular the product's stock
— to exactly its value before the booking. -/
theorem book_delete_roundtrip (s : State) (cid : Nat) (dd : Int) (pid : Nat)
    (q : Int) (s' : State)
    (hfresh : ∀ d ∈ s.deliveries, d.id ≠ s.nextDeliveryId)
    (hbook : bookDeliveries s cid dd [⟨pid, q⟩] = Except.ok s') :
    ∃ s'', deleteDelivery s' s.nextDeliveryId = Except.ok s'' ∧
      s''.products = s.products := by
  obtain ⟨c, p, hcf, hfp, hq, hpr, hst, rfl⟩ :=
    book_single_inversion s cid dd pid q s' hbook
  have hfind : (refresh_invoice_statuses
        (writeLine cid c.terms dd s ⟨pid, p.name, q, p.price⟩)).deliveries.find?
      (fun d0 => d0.id == s.nextDeliveryId) =
      some ⟨s.nextDeliveryId, dd, cid, pid, q, p.price⟩ := by
    show (s.deliveries ++ [Delivery.mk s.nextDeliveryId dd cid pid q p.price]).find?
        (fun d0 : Delivery => d0.id == s.nextDeliveryId) =
      some (Delivery.mk s.nextDeliveryId dd cid pid q p.price)
    rw [find?_append_none _ _ _ (fun x hx => by simp [hfresh x hx])]
    simp [List.find?]
  obtain ⟨t, ht⟩ : ∃ t, deleteDelivery
      (refresh_invoice_statuses (writeLine cid c.terms dd s ⟨pid, p.name, q, p.price⟩))
      s.nextDeliveryId = Except.ok t := by
    simp only [deleteDelivery, hfind]
    exact ⟨_, rfl⟩
  refine ⟨t, ht, ?_⟩
  rw [deleteDelivery_products_of_find _ _ _ t hfind ht]
  show (s.products.map (fun p1 =>
      if p1.id = pid then { p1 with stock := p1.stock - q } else p1)).map
      (fun p1 => if p1.id = pid then { p1 with stock := p1.stock + q } else p1) = s.products
  rw [List.map_map]
  have hpt : ∀ p0 : Product,
      ((fun p1 : Product => if p1.id = pid then { p1 with stock := p1.stock + q } else p1) ∘
        (fun p1 : Product => if p1.id = pid then { p1 with stock := p1.stock - q } else p1)) p0 = p0 := by
    intro p0
    rcases p0 with ⟨a, b, c0, d0⟩
    by_cases h : a = pid
    · simp [h]
    · simp [h]
  rw [List.map_congr_left (fun p0 _ => hpt p0), List.map_id']

/-- C4 witness: book 20 cartons against `S0` (stock 100 → 80), delete the
delivery, and the products table is back to `S0`'s. -/
theorem book_delete_roundtrip_witness :
    ∃ s'', deleteDelivery SB 1 = Except.ok s'' ∧ s''.products = S0.products :=
  book_delete_roundtrip S0 1 0 1 20 SB (fun _ hd => nomatch hd) book_S0

/-! ### C5: the generated invoice's fields -/

/-- C5: every successful one-line booking appends exactly one invoice whose
total is the captured unit price times the quantity — computed exactly (the
source multiplies `Decimal` values, embedded here as exact rationals) —
whose issued date is the delivery date, whose due date is the issued date
plus the customer's payment-terms days, and whose stored status is `"open"`.
The freshness hypotheses are the autoincrement invariant: no existing
invoice or payment row references the next assigned invoice id. -/
theorem booked_invoice_fields (s : State) (cid : Nat) (dd : Int) (pid : Nat)
    (q : Int) (s' : State) (c : Customer) (p : Product)
    (hc : s.customers.find? (fun cc => cc.id == cid) = some c)
    (hp : s.products.find? (fun pp => pp.id == pid) = some p)
    (hfreshInv : ∀ i ∈ s.invoices, i.id ≠ s.nextInvoiceId)
    (hfreshPay : ∀ pay ∈ s.payments, pay.invoice_id ≠ s.nextInvoiceId)
    (hbook : bookDeliveries s cid dd [⟨pid, q⟩] = Except.ok s') :
    ∃ inv, s'.invoices.getLast? = some inv ∧
      inv.total = p.price * (q : Money) ∧ inv.issued_at = dd ∧
      inv.due_at = dd + c.terms ∧ inv.status = "open" := by
  obtain ⟨c', p', hcf, hfp, hq, hpr, hst, rfl⟩ :=
    book_single_inversion s cid dd pid q s' hbook
  rw [hc] at hcf
  cases hcf
  rw [hp] at hfp
  cases hfp
  set W := writeLine cid c.terms dd s ⟨pid, p.name, q, p.price⟩ with hWdef
  have hWinv : W.invoices = s.invoices ++ [Invoice.mk s.nextInvoiceId s.nextDeliveryId
      (p.price * (q : Money)) dd (dd + c.terms) "open"] := rfl
  have hfindW : W.invoices.find? (fun i => i.id == s.nextInvoiceId) =
      some (Invoice.mk s.nextInvoiceId s.nextDeliveryId
        (p.price * (q : Money)) dd (dd + c.terms) "open") := by
    rw [hWinv, find?_append_none _ _ _ (fun x hx => by simp [hfreshInv x hx])]
    simp [List.find?]
  have hpaid : paidSum W s.nextInvoiceId = 0 := by
    show paidSumL s.payments s.nextInvoiceId = 0
    unfold paidSumL
    rw [List.filter_eq_nil_iff.2 (fun a ha => by simp [hfreshPay a ha])]
    simp
  have hstat : invoice_status W s.nextInvoiceId = "open" := by
    unfold invoice_status
    rw [hfindW]
    simp [hpaid]
  refine ⟨Invoice.mk s.nextInvoiceId s.nextDeliveryId
    (p.price * (q : Money)) dd (dd + c.terms) "open", ?_, rfl, rfl, rfl, rfl⟩
  have hrefresh : (refresh_invoice_statuses W).invoices =
      W.invoices.map (fun i => { i with status := invoice_status W i.id }) := rfl
  rw [hrefresh, hWinv, List.map_append, List.map_singleton, List.getLast?_concat]
  simp [hstat]

/-- C5 witness: the invoice generated by booking 20 cartons at price 10 on
day 0 with 30-day terms has total `10 * 20`, issue day 0, due day 30, and
status `"open"`. -/
theorem booked_invoice_fields_witness :
    ∃ inv, SB.invoices.getLast? = some inv ∧
      inv.total = (Product.mk 1 "P" 10 100).price * ((20 : Int) : Money) ∧
      inv.issued_at = 0 ∧ inv.due_at = 0 + (Customer.mk 1 30).terms ∧
      inv.status = "open" :=
  booked_invoice_fields S0 1 0 1 20 SB ⟨1, 30⟩ ⟨1, "P", 10, 100⟩ rfl rfl
    (fun _ hi => nomatch hi) (fun _ hpay => nomatch hpay) book_S0

/-- When every earlier requested line is skipped (quantity ≤ 0) or passes
its checks, the validation loop stops at the first positive-quantity line
whose product has no positive price, with the no-price error. -/
theorem validateLoop_reaches_noPrice (s : State) :
    ∀ (pre : List ReqLine) (rl : ReqLine) (post : List ReqLine) (p : Product),
      (∀ x ∈ pre, x.qty ≤ 0 ∨ passes s x) →
      0 < rl.qty →
      s.products.find? (fun pp => pp.id == rl.prod_id) = some p →
      p.price ≤ 0 →
      validateLoop s (pre ++ rl :: post) = Except.error (BookErr.noPrice p.name) := by
  intro pre
  induction pre with
  | nil =>
    intro rl post p _ hq hp hpr
    simp only [List.nil_append, validateLoop]
    rw [if_neg (by omega : ¬ rl.qty ≤ 0)]
    simp only [hp]
    rw [if_pos hpr]
  | cons x pre ih =>
    intro rl post p hpre hq hp hpr
    simp only [List.cons_append, validateLoop, List.append_eq]
    by_cases hxq : x.qty ≤ 0
    · rw [if_pos hxq]
      exact ih rl post p (fun y hy => hpre y (List.mem_cons_of_mem x hy)) hq hp hpr
    · rcases hpre x (List.mem_cons_self x pre) with hx | ⟨px, hpx, hppx, hpsx⟩
      · exact absurd hx hxq
      · rw [if_neg hxq]
        simp only [hpx]
        rw [if_neg (not_le.2 hppx), if_neg (not_lt.2 hpsx),
          ih rl post p (fun y hy => hpre y (List.mem_cons_of_mem x hy)) hq hp hpr]

/-! ### C7: no booking for a product without a configured price -/

/-- C7: a delivery-booking attempt whose first considered line (lines before
it are skipped for quantity ≤ 0 or pass their checks) requests a positive
quantity of a product whose configured unit price is 0 or less (0 is also
what an unset price reads as) is rejected with the no-price error, and —
the handler erroring before its write phase — produces no delivery row, no
invoice row and no stock change. -/
theorem zero_price_booking_rejected (s : State) (cid : Nat) (dd : Int)
    (pre post : List ReqLine) (rl : ReqLine) (c : Customer) (p : Product)
    (hc : s.customers.find? (fun cc => cc.id == cid) = some c)
    (hpre : ∀ x ∈ pre, x.qty ≤ 0 ∨ passes s x)
    (hq : 0 < rl.qty)
    (hp : s.products.find? (fun pp => pp.id == rl.prod_id) = some p)
    (hprice : p.price ≤ 0) :
    bookDeliveries s cid dd (pre ++ rl :: post) =
      Except.error (BookErr.noPrice p.name) ∧
    applyOp s (Op.book cid dd (pre ++ rl :: post)) = s := by
  have hv := validateLoop_reaches_noPrice s pre rl post p hpre hq hp hprice
  have hb : bookDeliveries s cid dd (pre ++ rl :: post) =
      Except.error (BookErr.noPrice p.name) := by
    unfold bookDeliveries
    simp only [hc, hv]
  exact ⟨hb, by simp [applyOp, hb]⟩

/-- C7 witness: booking 5 cartons of the price-0 product of `SP` is rejected
with the no-price error and the store is untouched. -/
theorem zero_price_booking_rejected_witness :
    bookDeliveries SP 1 0 [⟨1, 5⟩] =
      Except.error (BookErr.noPrice (Product.mk 1 "Z" 0 50).name) ∧
    applyOp SP (Op.book 1 0 [⟨1, 5⟩]) = SP :=
  zero_price_booking_rejected SP 1 0 [] [] ⟨1, 5⟩ ⟨1, 30⟩ ⟨1, "Z", 0, 50⟩ rfl
    (fun x hx => nomatch hx) (by norm_num) rfl (by norm_num)

/-! ### C10: all-or-nothing validation of a multi-line request (corrected) -/

/-- C10 counterexample: the two-line request `[(1, qty 5), (2, qty 0)]`
contains a selected line that fails the quantity > 0 validation, yet the
booking succeeds and writes the other line: a delivery row exists and the
first product's stock changed — so a failing selected line does not block
all writes; quantity-0 lines are silently skipped instead. -/
theorem skipped_line_counterexample :
    bookDeliveries S10 1 0 [⟨1, 5⟩, ⟨2, 0⟩] = Except.ok S10' ∧
    ¬ (0 < (ReqLine.mk 2 0).qty) ∧
    S10'.deliveries = [⟨1, 0, 1, 1, 5, 10⟩] ∧
    S10'.products.map Product.stock = [95, 50] :=
  ⟨book_S10, by norm_num, rfl, rfl⟩

/-- C10 (amended): lines with quantity ≤ 0 are silently skipped rather than
treated as failures; every line with positive quantity is validated (product
exists, price > 0, quantity ≤ stock) before any write occurs, and if any
positive-quantity line fails validation, the whole request errors and no
delivery row, invoice row or stock change is written for any line. -/
theorem failing_line_blocks_writes (s : State) (cid : Nat) (dd : Int)
    (req : List ReqLine) (rl : ReqLine)
    (hmem : rl ∈ req) (hq : 0 < rl.qty) (hfail : ¬ passes s rl) :
    (∃ e, bookDeliveries s cid dd req = Except.error e) ∧
    applyOp s (Op.book cid dd req) = s := by
  have hb : ∃ e, bookDeliveries s cid dd req = Except.error e := by
    cases hcf : s.customers.find? (fun cc => cc.id == cid) with
    | none => exact ⟨BookErr.customerNotFound, by simp [bookDeliveries, hcf]⟩
    | some c =>
      cases hv : validateLoop s req with
      | error e => exact ⟨e, by simp [bookDeliveries, hcf, hv]⟩
      | ok lines => exact absurd (validateLoop_passes s req lines hv rl hmem hq) hfail
  rcases hb with ⟨e, he⟩
  exact ⟨⟨e, he⟩, by simp [applyOp, he]⟩

/-- C10 witness (amended claim): a single-line request exceeding the stock
of product 2 errors and leaves the store untouched. -/
theorem failing_line_blocks_writes_witness :
    (∃ e, bookDeliveries S10 1 0 [⟨2, 60⟩] = Except.error e) ∧
    applyOp S10 (Op.book 1 0 [⟨2, 60⟩]) = S10 :=
  failing_line_blocks_writes S10 1 0 [⟨2, 60⟩] ⟨2, 60⟩ (by simp) (by norm_num)
    (by
      intro hpass
      obtain ⟨p, hp, hpr, hst⟩ := hpass
      rw [show S10.products.find? (fun pp => pp.id == (ReqLine.mk 2 60).prod_id) =
        some (Product.mk 2 "B" 5 50) from rfl] at hp
      cases hp
      exact absurd hst (by norm_num))

/-! ### C9: atomicity of the write phase (code bug) -/

/-- Running the whole committed-transaction list of the write phase is the
write phase itself. -/
theorem applyTxns_bookingTxns (cid : Nat) (terms dd : Int) :
    ∀ (lines : List BLine) (s : State),
      applyTxns s (bookingTxns cid terms dd lines) =
        lines.foldl (writeLine cid terms dd) s := by
  intro lines
  induction lines with
  | nil => intro _; rfl
  | cons l ls ih =>
    intro s
    have hsplit : bookingTxns cid terms dd (l :: ls) =
        [insertDeliveryTxn cid dd l, decStockTxn l, insertInvoiceTxn terms dd l] ++
          bookingTxns cid terms dd ls := rfl
    rw [hsplit]
    unfold applyTxns
    rw [List.foldl_append]
    exact ih (writeLine cid terms dd s l)

/-- C9 (refuting atomicity): the booking write phase is issued as separate
per-statement transactions (`execute` opens a fresh transaction per SQL
statement), so after the first two commits of booking 20 cartons against
`S0` the observable store `SP9` already has the delivery row inserted and
the stock decremented but no invoice — a committed partial write that is
neither the initial nor the final state, while a third transaction is still
pending; the full transaction list is exactly the handler's write phase. -/
theorem booking_partial_write_committed :
    commitUpTo S0 (bookingTxns 1 30 0 [⟨1, "P", 20, 10⟩]) 2 = SP9 ∧
    SP9.products.map Product.stock = [80] ∧
    SP9.invoices = [] ∧
    SP9 ≠ S0 ∧
    2 < (bookingTxns 1 30 0 [⟨1, "P", 20, 10⟩]).length ∧
    applyTxns S0 (bookingTxns 1 30 0 [⟨1, "P", 20, 10⟩]) =
      [(⟨1, "P", 20, 10⟩ : BLine)].foldl (writeLine 1 30 0) S0 := by
  refine ⟨?_, rfl, rfl, ?_, ?_, applyTxns_bookingTxns 1 30 0 [⟨1, "P", 20, 10⟩] S0⟩
  · norm_num [commitUpTo, applyTxns, bookingTxns, insertDeliveryTxn, decStockTxn,
      S0, SP9, List.take]
  · intro h
    exact absurd (congrArg State.nextDeliveryId h) (by decide)
  · norm_num [bookingTxns]

end Adetta
